import Mathlib

/-!
Shallow embedding of the go-solar astronomical core (package solar, with its
older package sunrise duplicates collapsed: the two carry identical formula
code).  Go float64 arithmetic is idealised as exact real arithmetic; float64
to int64 conversion is modelled as truncation toward zero, as in Go.  The
float NaN produced by math.Acos outside [-1, 1] is modelled by branching on
the same condition the NaN check observes.  Lean real division by zero gives
0 where a float would give plus/minus infinity or NaN; all theorems that touch
such a quotient keep the latitude away from the poles so the two semantics
agree.
-/

namespace Solar

/-! ## Calendar arithmetic (Go time.Date / time.Unix, proleptic Gregorian).
Computable integer functions, Howard Hinnant's civil-from-days algorithm,
matching Go's absolute-date conversion. -/

/-- Day number (days since 1970-01-01) of a proleptic-Gregorian civil date,
as Go time.Date computes it. -/
def daysFromCivil (y m d : ℤ) : ℤ :=
  let y2 := y - (if m ≤ 2 then 1 else 0)
  let era := Int.fdiv y2 400
  let yoe := y2 - era * 400
  let mShifted := if 2 < m then m - 3 else m + 9
  let doy := Int.fdiv (153 * mShifted + 2) 5 + d - 1
  let doe := yoe * 365 + Int.fdiv yoe 4 - Int.fdiv yoe 100 + doy
  era * 146097 + doe - 719468

/-- Civil date (year, month, day) of a day number, as Go Time.Date reports it. -/
def civilFromDays (z0 : ℤ) : ℤ × ℤ × ℤ :=
  let z := z0 + 719468
  let era := Int.fdiv z 146097
  let doe := z - era * 146097
  let yoe :=
    Int.fdiv (doe - Int.fdiv doe 1460 + Int.fdiv doe 36524 - Int.fdiv doe 146096) 365
  let y := yoe + era * 400
  let doy := doe - (365 * yoe + Int.fdiv yoe 4 - Int.fdiv yoe 100)
  let mp := Int.fdiv (5 * doy + 2) 153
  let dd := doy - Int.fdiv (153 * mp + 2) 5 + 1
  let mm := if mp < 10 then mp + 3 else mp - 9
  (if mm ≤ 2 then y + 1 else y, mm, dd)

/-- Calendar date of a Unix timestamp in UTC (Go t.Year(), t.Month(), t.Day()). -/
def dateOfUnix (s : ℤ) : ℤ × ℤ × ℤ := civilFromDays (Int.fdiv s 86400)

/-- Model of Go time.Time restricted to what the library observes: either the
zero value time.Time\x7b\x7d or an instant with whole-second Unix time. -/
inductive GoTime where
  | zero : GoTime
  | unix (s : ℤ) : GoTime
deriving DecidableEq

noncomputable section

open Real

/-! ## Constants (const.go). -/

/-- Degree is the fraction for converting between degrees and radians (const.go). -/
def Degree : ℝ := Real.pi / 180

/-- J2000 epoch Julian date (const.go). -/
def J2000 : ℝ := 2451545

/-- Mean anomaly at J2000, degrees (const.go). -/
def SolarMeanAnomalyBase : ℝ := 357.5291

/-- Daily change in mean anomaly, degrees per day (const.go). -/
def SolarMeanAnomalyRate : ℝ := 0.98560028

/-- Full rotation in degrees (const.go). -/
def FullCircleDegrees : ℝ := 360

/-- Semicircle in degrees (const.go). -/
def HalfCircleDegrees : ℝ := 180

/-- First equation-of-center coefficient (const.go). -/
def EquationOfCenterC1 : ℝ := 1.9148

/-- Second equation-of-center coefficient (const.go). -/
def EquationOfCenterC2 : ℝ := 0.0200

/-- Third equation-of-center coefficient (const.go). -/
def EquationOfCenterC3 : ℝ := 0.0003

/-- Sine of Earth's axial tilt (const.go). -/
def SinDeclinationCoefficient : ℝ := 0.39779

/-- First equation-of-time coefficient (const.go). -/
def EquationOfTimeC1 : ℝ := 0.0053

/-- Second equation-of-time coefficient (const.go). -/
def EquationOfTimeC2 : ℝ := 0.0069

/-- Sunrise/sunset correction angle, radians (const.go). -/
def SunriseCorrectionAngle : ℝ := -0.01449

/-- Argument of perihelion at J2000, degrees (const.go). -/
def PerihelionBase : ℝ := 102.93005

/-- Perihelion precession per Julian century, degrees (const.go). -/
def PerihelionRate : ℝ := 0.3179526

/-- Days in a Julian century (const.go). -/
def JulianCenturyDays : ℝ := 36525

/-- Longitude-to-fractional-day divisor (const.go). -/
def LongitudeDivisor : ℝ := 360

/-- Seconds in a day (julian.go). -/
def secondsInADay : ℝ := 86400

/-- Julian day of the Unix epoch (julian.go). -/
def unixEpochJulianDay : ℝ := 2440587.5

/-! ## Float-operation models. -/

/-- Truncation toward zero: Go's float64 to int64 conversion. -/
def trunc (x : ℝ) : ℤ := if 0 ≤ x then ⌊x⌋ else -⌊-x⌋

/-- Go math.Mod: remainder with the sign of the dividend,
x - y * trunc (x / y). -/
def goMod (x y : ℝ) : ℝ := x - y * trunc (x / y)

/-- Go math.Remainder: IEEE remainder, x - y * (x / y rounded to nearest).
IEEE rounds half to even while Mathlib's round rounds half up; the two differ
only when x / y is an exact half-integer, and meanAnomaly (the one caller)
returns the same value under either convention because its negative branch
adds the period back. -/
def ieeeRem (x y : ℝ) : ℝ := x - y * round (x / y)

/-! ## Time representation (julian.go). -/

/-- TimeToJulianDay converts a whole-second UTC instant (its Unix seconds) to
a Julian day (julian.go). -/
def TimeToJulianDay (t : ℤ) : ℝ := (t : ℝ) / secondsInADay + unixEpochJulianDay

/-- JulianDayToTime converts a Julian day to Unix seconds, truncating as Go's
int64 conversion does (julian.go). -/
def JulianDayToTime (d : ℝ) : ℤ := trunc ((d - unixEpochJulianDay) * secondsInADay)

/-! ## Orbital elements (anomaly.go, longitude.go, perihelion.go,
part_004, part_007, part_010). -/

/-- Solar mean anomaly for a Julian day (anomaly.go): IEEE remainder by 360,
negatives shifted into the principal range. -/
def meanAnomaly (d : ℝ) : ℝ :=
  let v := ieeeRem (SolarMeanAnomalyBase + SolarMeanAnomalyRate * (d - J2000)) FullCircleDegrees
  if v < 0 then v + FullCircleDegrees else v

/-- Equation of center for a mean anomaly in degrees (part_007). -/
def equationOfCenter (solarAnomaly : ℝ) : ℝ :=
  EquationOfCenterC1 * Real.sin (solarAnomaly * Degree) +
    EquationOfCenterC2 * Real.sin (2 * (solarAnomaly * Degree)) +
    EquationOfCenterC3 * Real.sin (3 * (solarAnomaly * Degree))

/-- Argument of perihelion for a Julian day (perihelion.go; the solar package's
lower-case copy carries the same formula). -/
def argumentOfPerihelion (d : ℝ) : ℝ :=
  PerihelionBase + PerihelionRate * (d - J2000) / JulianCenturyDays

/-- Ecliptic longitude (longitude.go): Go math.Mod by 360 of
anomaly + center + 180 + perihelion. -/
def eclipticLongitude (solarAnomaly eoc d : ℝ) : ℝ :=
  goMod (solarAnomaly + eoc + HalfCircleDegrees + argumentOfPerihelion d) FullCircleDegrees

/-- True solar transit Julian day (part_010): equation-of-time correction. -/
def transit (d solarAnomaly el : ℝ) : ℝ :=
  d + (EquationOfTimeC1 * Real.sin (solarAnomaly * Degree) -
    EquationOfTimeC2 * Real.sin (2 * el * Degree))

/-- Solar declination in degrees for an ecliptic longitude in degrees (part_004). -/
def declination (el : ℝ) : ℝ :=
  Real.arcsin (Real.sin (el * Degree) * SinDeclinationCoefficient) / Degree

/-! ## Mean solar noon (noon.go) and the per-date pipeline. -/

/-- Mean solar noon in Julian days for a longitude and date (noon.go):
the date's 12:00:00 UTC shifted by longitude / 360 days. -/
def meanSolarNoonInternal (longitude : ℝ) (y m d : ℤ) : ℝ :=
  TimeToJulianDay (86400 * daysFromCivil y m d + 43200) - longitude / LongitudeDivisor

/-- Ecliptic longitude of the chain started from a date's mean solar noon
(the let-bound eclipticLongitude every internal function computes). -/
def eclOf (lon : ℝ) (y m d : ℤ) : ℝ :=
  let dd := meanSolarNoonInternal lon y m d
  eclipticLongitude (meanAnomaly dd) (equationOfCenter (meanAnomaly dd)) dd

/-- True solar transit of the chain started from a date's mean solar noon
(the let-bound transit every internal function computes). -/
def transitOf (lon : ℝ) (y m d : ℤ) : ℝ :=
  let dd := meanSolarNoonInternal lon y m d
  transit dd (meanAnomaly dd) (eclOf lon y m d)

/-- Declination of the chain started from a date's mean solar noon
(the let-bound declination every internal function computes). -/
def declOf (lon : ℝ) (y m d : ℤ) : ℝ := declination (eclOf lon y m d)

/-! ## Hour angle and sunrise/sunset (part_011, part_009). -/

/-- Tagged model of hourAngle's float sentinel encoding: the source returns
plus or minus math.MaxFloat64 and callers compare for those exact values, so
the three outcomes behave as this sum type. -/
inductive HourAngleResult where
  | neverRises : HourAngleResult
  | neverSets : HourAngleResult
  | angle (degrees : ℝ) : HourAngleResult
deriving DecidableEq

/-- The domain errors of part_011: ErrSunNeverRises and ErrSunNeverSets. -/
inductive SunError where
  | neverRises : SunError
  | neverSets : SunError
deriving DecidableEq

/-- Hour angle at which the sun crosses the sunrise correction elevation
(part_011): never-rises when the cosine ratio exceeds 1, never-sets when it
is below -1, otherwise acos of the ratio in degrees. -/
def hourAngle (latitude decl : ℝ) : HourAngleResult :=
  let numerator := SunriseCorrectionAngle -
    Real.sin (latitude * Degree) * Real.sin (decl * Degree)
  let denominator := Real.cos (latitude * Degree) * Real.cos (decl * Degree)
  if 1 < numerator / denominator then .neverRises
  else if numerator / denominator < -1 then .neverSets
  else .angle (Real.arccos (numerator / denominator) / Degree)

/-- The cosine-of-hour-angle quotient hourAngle computes for a location and
date (the numerator over denominator of part_011 applied to the date's
declination). -/
def sunCosHA (lat lon : ℝ) (y m d : ℤ) : ℝ :=
  (SunriseCorrectionAngle - Real.sin (lat * Degree) * Real.sin (declOf lon y m d * Degree)) /
    (Real.cos (lat * Degree) * Real.cos (declOf lon y m d * Degree))

/-- Sunrise Julian day of part_009's success path: transit minus the hour
angle in degrees over 360. -/
def sunriseJD (lat lon : ℝ) (y m d : ℤ) : ℝ :=
  transitOf lon y m d - (Real.arccos (sunCosHA lat lon y m d) / Degree) / FullCircleDegrees

/-- Sunset Julian day of part_009's success path. -/
def sunsetJD (lat lon : ℝ) (y m d : ℤ) : ℝ :=
  transitOf lon y m d + (Real.arccos (sunCosHA lat lon y m d) / Degree) / FullCircleDegrees

/-- Shared implementation of Sunrise, Sunset and SunriseSunset (part_011's
sunriseSunsetInternal): zero times with an error on the two polar outcomes,
otherwise the two crossing instants and no error. -/
def sunriseSunsetInternal (lat lon : ℝ) (y m d : ℤ) : GoTime × GoTime × Option SunError :=
  match hourAngle lat (declOf lon y m d) with
  | .neverRises => (.zero, .zero, some .neverRises)
  | .neverSets => (.zero, .zero, some .neverSets)
  | .angle ha =>
    let frac := ha / FullCircleDegrees
    (.unix (JulianDayToTime (transitOf lon y m d - frac)),
      .unix (JulianDayToTime (transitOf lon y m d + frac)), none)

/-! ## Elevation and time of elevation (part_001). -/

/-- The cosine-of-hour-angle quotient timeOfElevationInternal computes:
(sin target - sin lat sin decl) / (cos lat cos decl). -/
def elevCosHA (lat lon elevation : ℝ) (y m d : ℤ) : ℝ :=
  (Real.sin (elevation * Degree) -
      Real.sin (lat * Degree) * Real.sin (declOf lon y m d * Degree)) /
    (Real.cos (lat * Degree) * Real.cos (declOf lon y m d * Degree))

/-- Morning crossing Julian day of part_001's success path:
transit - acos(ratio) / 2 pi. -/
def morningJD (lat lon elevation : ℝ) (y m d : ℤ) : ℝ :=
  transitOf lon y m d - Real.arccos (elevCosHA lat lon elevation y m d) / (2 * Real.pi)

/-- Evening crossing Julian day of part_001's success path. -/
def eveningJD (lat lon elevation : ℝ) (y m d : ℤ) : ℝ :=
  transitOf lon y m d + Real.arccos (elevCosHA lat lon elevation y m d) / (2 * Real.pi)

/-- timeOfElevationInternal (part_001): zero times when float acos of the
ratio would be NaN (the ratio falls outside [-1, 1]), otherwise the morning
and evening crossing instants. -/
def timeOfElevationInternal (lat lon elevation : ℝ) (y m d : ℤ) : GoTime × GoTime :=
  if elevCosHA lat lon elevation y m d < -1 ∨ 1 < elevCosHA lat lon elevation y m d then
    (.zero, .zero)
  else
    (.unix (JulianDayToTime (morningJD lat lon elevation y m d)),
      .unix (JulianDayToTime (eveningJD lat lon elevation y m d)))

/-- Elevation formula of part_001's elevationInternal evaluated at a Julian
day, with the solar chain taken from the given calendar date:
asin(sin lat sin decl + cos lat cos decl cos(2 pi (transit - jd))) in degrees. -/
def elevationAtJD (lat lon : ℝ) (y m d : ℤ) (jd : ℝ) : ℝ :=
  Real.arcsin (Real.sin (lat * Degree) * Real.sin (declOf lon y m d * Degree) +
      Real.cos (lat * Degree) * Real.cos (declOf lon y m d * Degree) *
        Real.cos (2 * Real.pi * (transitOf lon y m d - jd))) / Degree

/-- elevationInternal (part_001): the chain is recomputed from the instant's
own UTC calendar date. -/
def elevationInternal (lat lon : ℝ) (when : ℤ) : ℝ :=
  elevationAtJD lat lon (dateOfUnix when).1 (dateOfUnix when).2.1 (dateOfUnix when).2.2
    (TimeToJulianDay when)

/-! ## Azimuth (part_000). -/

/-- The hour angle azimuthInternal derives from the instant:
2 pi (julianDay(when) - transit). -/
def azHourAngleOf (lon : ℝ) (when : ℤ) : ℝ :=
  2 * Real.pi * (TimeToJulianDay when -
    transitOf lon (dateOfUnix when).1 (dateOfUnix when).2.1 (dateOfUnix when).2.2)

/-- The cosine of azimuth computed by azimuthInternal:
(sin decl cos lat - cos decl sin lat cos H) / cos elevation. -/
def azCosArg (lat lon : ℝ) (when : ℤ) : ℝ :=
  (Real.sin (declOf lon (dateOfUnix when).1 (dateOfUnix when).2.1 (dateOfUnix when).2.2 * Degree) *
      Real.cos (lat * Degree) -
    Real.cos (declOf lon (dateOfUnix when).1 (dateOfUnix when).2.1 (dateOfUnix when).2.2 * Degree) *
      Real.sin (lat * Degree) * Real.cos (azHourAngleOf lon when)) /
    Real.cos (elevationInternal lat lon when * Degree)

/-- azimuthInternal (part_000): acos of the azimuth cosine in degrees,
reflected to 360 - az when the hour angle is non-negative. -/
def azimuthInternal (lat lon : ℝ) (when : ℤ) : ℝ :=
  let az := Real.arccos (azCosArg lat lon when) / Degree
  if 0 ≤ azHourAngleOf lon when then FullCircleDegrees - az else az

/-! ## Twilight presets (twilight.go). -/

/-- Twilight kinds of twilight.go. -/
inductive TwilightType where
  | civil : TwilightType
  | nautical : TwilightType
  | astronomical : TwilightType
deriving DecidableEq

/-- Modelled from the spec: the CivilTwilightAngle constant referenced by
twilightAngle is not among the provided source files; the spec fixes the
civil twilight threshold at -6 degrees. -/
def CivilTwilightAngle : ℝ := -6

/-- Modelled from the spec: the NauticalTwilightAngle constant referenced by
twilightAngle is not among the provided source files; the spec fixes the
nautical twilight threshold at -12 degrees. -/
def NauticalTwilightAngle : ℝ := -12

/-- Modelled from the spec: the AstronomicalTwilightAngle constant referenced
by twilightAngle is not among the provided source files; the spec fixes the
astronomical twilight threshold at -18 degrees. -/
def AstronomicalTwilightAngle : ℝ := -18

/-- twilightAngle (twilight.go): elevation threshold of a twilight kind,
civil being the default branch. -/
def twilightAngle : TwilightType → ℝ
  | .nautical => NauticalTwilightAngle
  | .astronomical => AstronomicalTwilightAngle
  | .civil => CivilTwilightAngle

/-- dawnInternal (twilight.go): morning component of timeOfElevationInternal
at the twilight angle. -/
def dawnInternal (lat lon : ℝ) (y m d : ℤ) (tt : TwilightType) : GoTime :=
  (timeOfElevationInternal lat lon (twilightAngle tt) y m d).1

/-- duskInternal (twilight.go): evening component of timeOfElevationInternal
at the twilight angle. -/
def duskInternal (lat lon : ℝ) (y m d : ℤ) (tt : TwilightType) : GoTime :=
  (timeOfElevationInternal lat lon (twilightAngle tt) y m d).2

/-! ## Unnormalized companions.  The sine of any chain angle is unchanged when
the mod-360 normalizations are dropped, since they only subtract whole turns;
these smooth companions support continuity and interval arguments. -/

/-- Mean anomaly before the mod-360 normalization. -/
def rawAnomaly (d : ℝ) : ℝ := SolarMeanAnomalyBase + SolarMeanAnomalyRate * (d - J2000)

/-- Ecliptic longitude of the per-date chain before either mod-360
normalization. -/
def rawEclOf (lon : ℝ) (y m d : ℤ) : ℝ :=
  let dd := meanSolarNoonInternal lon y m d
  rawAnomaly dd + equationOfCenter (rawAnomaly dd) + HalfCircleDegrees +
    argumentOfPerihelion dd

end

/-! ## Basic facts about the embedding. -/

open Real

lemma Degree_pos : 0 < Degree := by
  unfold Degree
  positivity

lemma Degree_ne_zero : Degree ≠ 0 := ne_of_gt Degree_pos

lemma Degree_lb : (0.0174532 : ℝ) < Degree := by
  have h := Real.pi_gt_d6
  unfold Degree
  linarith

lemma Degree_ub : Degree < 0.0174534 := by
  have h := Real.pi_lt_d6
  unfold Degree
  linarith

lemma Degree_mul_360 : Degree * 360 = 2 * Real.pi := by
  unfold Degree
  ring

lemma ninety_mul_Degree : (90 : ℝ) * Degree = Real.pi / 2 := by
  unfold Degree
  ring

lemma trunc_intCast (n : ℤ) : trunc (n : ℝ) = n := by
  unfold trunc
  split_ifs with h
  · exact Int.floor_intCast n
  · rw [← Int.cast_neg, Int.floor_intCast]
    ring

/-! ## The IEEE-remainder normalization equals reduction mod 360. -/

lemma ieeeRem_fix360 (x : ℝ) :
    (if ieeeRem x 360 < 0 then ieeeRem x 360 + 360 else ieeeRem x 360) =
      360 * Int.fract (x / 360) := by
  have hx : x = 360 * (x / 360) := by field_simp
  set q := x / 360 with hqdef
  have hfr : (⌊q⌋ : ℝ) + Int.fract q = q := Int.floor_add_fract q
  have h0 : (0 : ℝ) ≤ Int.fract q := Int.fract_nonneg q
  have h1 : Int.fract q < 1 := Int.fract_lt_one q
  have hrem : ieeeRem x 360 = x - 360 * round q := rfl
  rcases lt_or_le (Int.fract q) (1 / 2) with hf | hf
  · have hround : round q = ⌊q⌋ := by
      rw [round_eq]
      have hsplit : q + 1 / 2 = (⌊q⌋ : ℝ) + (Int.fract q + 1 / 2) := by linarith
      rw [hsplit, Int.floor_int_add]
      have : ⌊Int.fract q + 1 / 2⌋ = 0 := by
        rw [Int.floor_eq_zero_iff, Set.mem_Ico]
        exact ⟨by linarith, by linarith⟩
      omega
    have hval : ieeeRem x 360 = 360 * Int.fract q := by
      rw [hrem, hround]
      nth_rewrite 1 [hx]
      have := Int.self_sub_floor q
      nlinarith [this]
    rw [hval, if_neg (by nlinarith)]
  · have hround : round q = ⌊q⌋ + 1 := by
      rw [round_eq]
      have hsplit : q + 1 / 2 = (⌊q⌋ : ℝ) + (Int.fract q + 1 / 2) := by linarith
      rw [hsplit, Int.floor_int_add]
      have : ⌊Int.fract q + 1 / 2⌋ = 1 := by
        rw [Int.floor_eq_iff]
        exact ⟨by push_cast; linarith, by push_cast; linarith⟩
      omega
    have hval : ieeeRem x 360 = 360 * Int.fract q - 360 := by
      rw [hrem, hround]
      nth_rewrite 1 [hx]
      have := Int.self_sub_floor q
      push_cast
      nlinarith [this]
    rw [hval, if_pos (by nlinarith)]
    ring

lemma meanAnomaly_eq (d : ℝ) :
    meanAnomaly d = 360 * Int.fract (rawAnomaly d / 360) := by
  unfold meanAnomaly rawAnomaly FullCircleDegrees
  exact ieeeRem_fix360 _

lemma meanAnomaly_sub_raw (d : ℝ) :
    meanAnomaly d = rawAnomaly d - 360 * (⌊rawAnomaly d / 360⌋ : ℤ) := by
  rw [meanAnomaly_eq, ← Int.self_sub_floor]
  ring

/-! ## Periodicity: sines of chain angles ignore the mod-360 normalizations. -/

lemma sin_deg_sub_360 (x : ℝ) (k : ℤ) :
    Real.sin ((x - 360 * k) * Degree) = Real.sin (x * Degree) := by
  have h : (x - 360 * k) * Degree = x * Degree + (-k : ℤ) * (2 * Real.pi) := by
    unfold Degree
    push_cast
    ring
  rw [h, Real.sin_add_int_mul_two_pi]

lemma sin_two_deg_sub_360 (x : ℝ) (k : ℤ) :
    Real.sin (2 * (x - 360 * k) * Degree) = Real.sin (2 * x * Degree) := by
  have h : 2 * (x - 360 * k) * Degree = 2 * x * Degree + (-2 * k : ℤ) * (2 * Real.pi) := by
    unfold Degree
    push_cast
    ring
  rw [h, Real.sin_add_int_mul_two_pi]

lemma equationOfCenter_sub_360 (x : ℝ) (k : ℤ) :
    equationOfCenter (x - 360 * k) = equationOfCenter x := by
  unfold equationOfCenter
  have h1 := sin_deg_sub_360 x k
  have h2 : Real.sin (2 * ((x - 360 * k) * Degree)) = Real.sin (2 * (x * Degree)) := by
    have h : 2 * ((x - 360 * k) * Degree) = 2 * (x * Degree) + (-2 * k : ℤ) * (2 * Real.pi) := by
      unfold Degree
      push_cast
      ring
    rw [h, Real.sin_add_int_mul_two_pi]
  have h3 : Real.sin (3 * ((x - 360 * k) * Degree)) = Real.sin (3 * (x * Degree)) := by
    have h : 3 * ((x - 360 * k) * Degree) = 3 * (x * Degree) + (-3 * k : ℤ) * (2 * Real.pi) := by
      unfold Degree
      push_cast
      ring
    rw [h, Real.sin_add_int_mul_two_pi]
  rw [h1, h2, h3]

lemma sin_meanAnomaly (d : ℝ) :
    Real.sin (meanAnomaly d * Degree) = Real.sin (rawAnomaly d * Degree) := by
  rw [meanAnomaly_sub_raw]
  exact sin_deg_sub_360 _ _

lemma equationOfCenter_meanAnomaly (d : ℝ) :
    equationOfCenter (meanAnomaly d) = equationOfCenter (rawAnomaly d) := by
  rw [meanAnomaly_sub_raw]
  exact equationOfCenter_sub_360 _ _

lemma eclOf_sub_raw (lon : ℝ) (y m d : ℤ) :
    ∃ k : ℤ, eclOf lon y m d = rawEclOf lon y m d - 360 * k := by
  unfold eclOf eclipticLongitude rawEclOf goMod FullCircleDegrees
  set dd := meanSolarNoonInternal lon y m d
  have hM := meanAnomaly_sub_raw dd
  have hC := equationOfCenter_meanAnomaly dd
  refine ⟨trunc ((meanAnomaly dd + equationOfCenter (meanAnomaly dd) + HalfCircleDegrees +
    argumentOfPerihelion dd) / 360) + ⌊rawAnomaly dd / 360⌋, ?_⟩
  push_cast
  rw [hC] at *
  linarith [hM]

lemma sin_eclOf (lon : ℝ) (y m d : ℤ) :
    Real.sin (eclOf lon y m d * Degree) = Real.sin (rawEclOf lon y m d * Degree) := by
  obtain ⟨k, hk⟩ := eclOf_sub_raw lon y m d
  rw [hk]
  exact sin_deg_sub_360 _ _

lemma sin_two_eclOf (lon : ℝ) (y m d : ℤ) :
    Real.sin (2 * eclOf lon y m d * Degree) = Real.sin (2 * rawEclOf lon y m d * Degree) := by
  obtain ⟨k, hk⟩ := eclOf_sub_raw lon y m d
  rw [hk]
  exact sin_two_deg_sub_360 _ _

lemma transitOf_eq_raw (lon : ℝ) (y m d : ℤ) :
    transitOf lon y m d = meanSolarNoonInternal lon y m d +
      (EquationOfTimeC1 * Real.sin (rawAnomaly (meanSolarNoonInternal lon y m d) * Degree) -
        EquationOfTimeC2 * Real.sin (2 * rawEclOf lon y m d * Degree)) := by
  unfold transitOf transit
  dsimp only
  rw [sin_meanAnomaly, sin_two_eclOf]

/-! ## Bounds on chain quantities. -/

lemma abs_equationOfCenter_le (x : ℝ) : |equationOfCenter x| ≤ 1.9351 := by
  unfold equationOfCenter EquationOfCenterC1 EquationOfCenterC2 EquationOfCenterC3
  have b1 := Real.neg_one_le_sin (x * Degree)
  have b2 := Real.sin_le_one (x * Degree)
  have b3 := Real.neg_one_le_sin (2 * (x * Degree))
  have b4 := Real.sin_le_one (2 * (x * Degree))
  have b5 := Real.neg_one_le_sin (3 * (x * Degree))
  have b6 := Real.sin_le_one (3 * (x * Degree))
  rw [abs_le]
  constructor <;> nlinarith

lemma transitOf_sub_noon_le (lon : ℝ) (y m d : ℤ) :
    |transitOf lon y m d - meanSolarNoonInternal lon y m d| ≤ 0.0122 := by
  unfold transitOf transit EquationOfTimeC1 EquationOfTimeC2
  have b1 := Real.neg_one_le_sin (meanAnomaly (meanSolarNoonInternal lon y m d) * Degree)
  have b2 := Real.sin_le_one (meanAnomaly (meanSolarNoonInternal lon y m d) * Degree)
  have b3 := Real.neg_one_le_sin (2 * eclOf lon y m d * Degree)
  have b4 := Real.sin_le_one (2 * eclOf lon y m d * Degree)
  rw [abs_le]
  constructor <;> [simp; skip] <;> nlinarith

lemma declOf_mul_Degree (lon : ℝ) (y m d : ℤ) :
    declOf lon y m d * Degree =
      Real.arcsin (Real.sin (eclOf lon y m d * Degree) * SinDeclinationCoefficient) := by
  unfold declOf declination
  rw [div_mul_cancel₀ _ Degree_ne_zero]

lemma abs_declArg_le (x : ℝ) :
    |Real.sin x * SinDeclinationCoefficient| ≤ SinDeclinationCoefficient := by
  rw [abs_mul]
  unfold SinDeclinationCoefficient
  have h := Real.abs_sin_le_one x
  rw [abs_of_nonneg (by norm_num : (0.39779 : ℝ) ≥ 0)]
  nlinarith

lemma sin_declOf (lon : ℝ) (y m d : ℤ) :
    Real.sin (declOf lon y m d * Degree) =
      Real.sin (eclOf lon y m d * Degree) * SinDeclinationCoefficient := by
  rw [declOf_mul_Degree]
  have h := abs_declArg_le (eclOf lon y m d * Degree)
  unfold SinDeclinationCoefficient at *
  rw [Real.sin_arcsin (by cases abs_le.mp h; linarith) (by cases abs_le.mp h; linarith)]

lemma cos_declOf_ge (lon : ℝ) (y m d : ℤ) :
    (0.91 : ℝ) ≤ Real.cos (declOf lon y m d * Degree) := by
  rw [declOf_mul_Degree, Real.cos_arcsin]
  have h := abs_declArg_le (eclOf lon y m d * Degree)
  set s := Real.sin (eclOf lon y m d * Degree) * SinDeclinationCoefficient with hs
  have hsq : s ^ 2 ≤ (0.39779 : ℝ) ^ 2 := by
    have := sq_abs s
    unfold SinDeclinationCoefficient at h
    nlinarith [abs_nonneg s]
  rw [Real.le_sqrt (by norm_num) (by nlinarith)]
  nlinarith

lemma cos_declOf_pos (lon : ℝ) (y m d : ℤ) :
    0 < Real.cos (declOf lon y m d * Degree) :=
  lt_of_lt_of_le (by norm_num) (cos_declOf_ge lon y m d)

/-! ## Claim theorems start here. -/

/-- C2: for every UTC instant representable with whole-second precision, the
Julian-day round trip JulianDayToTime (TimeToJulianDay t) returns exactly t,
in particular it differs from t by at most one second. -/
theorem julianDay_roundTrip_within_one_second (t : ℤ) :
    JulianDayToTime (TimeToJulianDay t) = t ∧
      |JulianDayToTime (TimeToJulianDay t) - t| ≤ 1 := by
  have key : JulianDayToTime (TimeToJulianDay t) = t := by
    unfold JulianDayToTime TimeToJulianDay secondsInADay
    have h : ((t : ℝ) / 86400 + unixEpochJulianDay - unixEpochJulianDay) * 86400 = (t : ℝ) := by
      field_simp
      ring
    rw [h, trunc_intCast]
  exact ⟨key, by rw [key]; simp⟩

/-- C8: MeanAnomaly of a Julian day equals the stated affine expression
reduced mod 360 (here written with an explicit floor), and the result lies
in the interval from 0 inclusive to 360 exclusive. -/
theorem meanAnomaly_mod_formula (jd : ℝ) :
    meanAnomaly jd = (357.5291 + 0.98560028 * (jd - 2451545)) -
        360 * (⌊(357.5291 + 0.98560028 * (jd - 2451545)) / 360⌋ : ℤ) ∧
      0 ≤ meanAnomaly jd ∧ meanAnomaly jd < 360 := by
  have hraw : rawAnomaly jd = 357.5291 + 0.98560028 * (jd - 2451545) := by
    unfold rawAnomaly SolarMeanAnomalyBase SolarMeanAnomalyRate J2000
    norm_num
  refine ⟨?_, ?_, ?_⟩
  · rw [meanAnomaly_sub_raw, hraw]
  · rw [meanAnomaly_eq]
    have := Int.fract_nonneg (rawAnomaly jd / 360)
    linarith
  · rw [meanAnomaly_eq]
    have := Int.fract_lt_one (rawAnomaly jd / 360)
    linarith

/-! ## Branch characterizations of the sunrise/sunset and time-of-elevation
implementations. -/

lemma sunriseSunsetInternal_eq (lat lon : ℝ) (y m d : ℤ) :
    sunriseSunsetInternal lat lon y m d =
      if 1 < sunCosHA lat lon y m d then (.zero, .zero, some .neverRises)
      else if sunCosHA lat lon y m d < -1 then (.zero, .zero, some .neverSets)
      else (.unix (JulianDayToTime (sunriseJD lat lon y m d)),
        .unix (JulianDayToTime (sunsetJD lat lon y m d)), none) := by
  unfold sunriseSunsetInternal hourAngle sunCosHA sunriseJD sunsetJD
  dsimp only
  split_ifs <;> rfl

lemma timeOfElevation_success (lat lon elevation : ℝ) (y m d : ℤ)
    (h : |elevCosHA lat lon elevation y m d| ≤ 1) :
    timeOfElevationInternal lat lon elevation y m d =
      (.unix (JulianDayToTime (morningJD lat lon elevation y m d)),
        .unix (JulianDayToTime (eveningJD lat lon elevation y m d))) := by
  obtain ⟨hl, hr⟩ := abs_le.mp h
  unfold timeOfElevationInternal
  rw [if_neg]
  push_neg
  exact ⟨by linarith, by linarith⟩

/-- C3: SunriseSunset reports the never-rises error exactly when the hour
angle cosine ratio exceeds 1, the never-sets error exactly when it is below
-1, and otherwise returns no error together with the instants
transit - acos(ratio)/360 and transit + acos(ratio)/360 days, acos taken in
degrees. -/
theorem sunriseSunset_error_conditions (lat lon : ℝ) (y m d : ℤ) :
    ((sunriseSunsetInternal lat lon y m d).2.2 = some SunError.neverRises ↔
      1 < sunCosHA lat lon y m d) ∧
    ((sunriseSunsetInternal lat lon y m d).2.2 = some SunError.neverSets ↔
      sunCosHA lat lon y m d < -1) ∧
    (-1 ≤ sunCosHA lat lon y m d → sunCosHA lat lon y m d ≤ 1 →
      sunriseSunsetInternal lat lon y m d =
        (GoTime.unix (JulianDayToTime (sunriseJD lat lon y m d)),
          GoTime.unix (JulianDayToTime (sunsetJD lat lon y m d)), none)) := by
  rw [sunriseSunsetInternal_eq]
  split_ifs with h1 h2
  · refine ⟨⟨fun _ => h1, fun _ => rfl⟩, ⟨fun hc => ?_, fun hc => absurd h1 (by linarith)⟩,
      fun ha _ => absurd h1 (by linarith)⟩
    exact SunError.noConfusion (Option.some.inj hc)
  · refine ⟨⟨fun hc => ?_, fun hc => absurd hc h1⟩, ⟨fun _ => h2, fun _ => rfl⟩,
      fun ha _ => absurd h2 (by linarith)⟩
    exact SunError.noConfusion (Option.some.inj hc)
  · push_neg at h1 h2
    refine ⟨⟨fun hc => absurd hc (by simp), fun hc => absurd hc (by linarith)⟩,
      ⟨fun hc => absurd hc (by simp), fun hc => absurd hc (by linarith)⟩,
      fun _ _ => rfl⟩

/-- C4: TimeOfElevation returns the unreachable outcome (a pair of zero
times) exactly when the absolute value of the elevation cosine ratio exceeds
1, and otherwise returns the UTC conversions of transit - acos(ratio)/(2 pi)
and transit + acos(ratio)/(2 pi) days. -/
theorem timeOfElevation_unreachable_conditions (lat lon elevation : ℝ) (y m d : ℤ) :
    (timeOfElevationInternal lat lon elevation y m d = (GoTime.zero, GoTime.zero) ↔
      1 < |elevCosHA lat lon elevation y m d|) ∧
    (|elevCosHA lat lon elevation y m d| ≤ 1 →
      timeOfElevationInternal lat lon elevation y m d =
        (GoTime.unix (JulianDayToTime (morningJD lat lon elevation y m d)),
          GoTime.unix (JulianDayToTime (eveningJD lat lon elevation y m d)))) := by
  constructor
  · unfold timeOfElevationInternal
    split_ifs with h
    · simp only [true_iff]
      rcases h with h | h
      · calc (1 : ℝ) < -elevCosHA lat lon elevation y m d := by linarith
          _ ≤ |elevCosHA lat lon elevation y m d| := neg_le_abs _
      · exact lt_of_lt_of_le h (le_abs_self _)
    · push_neg at h
      constructor
      · intro hc
        exact GoTime.noConfusion (congrArg Prod.fst hc)
      · intro hc
        rcases le_or_lt (elevCosHA lat lon elevation y m d) 0 with hneg | hpos
        · rw [abs_of_nonpos hneg] at hc
          linarith [h.1]
        · rw [abs_of_pos hpos] at hc
          linarith [h.2]
  · exact timeOfElevation_success lat lon elevation y m d

/-- C6: Azimuth returns acos of the azimuth cosine converted to degrees when
the instant's hour angle is negative, and 360 minus that value when the hour
angle is non-negative. -/
theorem azimuth_reflection (lat lon : ℝ) (when : ℤ) :
    (azHourAngleOf lon when < 0 →
      azimuthInternal lat lon when = Real.arccos (azCosArg lat lon when) / Degree) ∧
    (0 ≤ azHourAngleOf lon when →
      azimuthInternal lat lon when = 360 - Real.arccos (azCosArg lat lon when) / Degree) := by
  unfold azimuthInternal FullCircleDegrees
  constructor
  · intro h
    rw [if_neg (by linarith)]
  · intro h
    rw [if_pos h]

/-- C5 amended: the azimuth always lies between 0 and 360 inclusive; the
value 360 itself is attained (see the counterexample), so the upper bound is
not strict. -/
theorem azimuth_range_amended (lat lon : ℝ) (when : ℤ) :
    0 ≤ azimuthInternal lat lon when ∧ azimuthInternal lat lon when ≤ 360 := by
  unfold azimuthInternal FullCircleDegrees
  have h0 : 0 ≤ Real.arccos (azCosArg lat lon when) := Real.arccos_nonneg _
  have h1 : Real.arccos (azCosArg lat lon when) ≤ Real.pi := Real.arccos_le_pi _
  have hdeg : Real.arccos (azCosArg lat lon when) / Degree ≤ 180 := by
    rw [div_le_iff₀ Degree_pos]
    have : (180 : ℝ) * Degree = Real.pi := by
      unfold Degree
      ring
    linarith [this]
  have hdeg0 : 0 ≤ Real.arccos (azCosArg lat lon when) / Degree :=
    div_nonneg h0 Degree_pos.le
  split_ifs <;> constructor <;> dsimp only <;> linarith

/-- C10: whenever the sunrise/sunset implementation returns an error, both
returned instants are exactly the zero time value, and whenever the dawn and
dusk presets hit the never-reached case (ratio outside [-1, 1]), they return
the zero time value as well. -/
theorem error_returns_zero_times (lat lon : ℝ) (y m d : ℤ) (tt : TwilightType) :
    ((sunriseSunsetInternal lat lon y m d).2.2 ≠ none →
      (sunriseSunsetInternal lat lon y m d).1 = GoTime.zero ∧
        (sunriseSunsetInternal lat lon y m d).2.1 = GoTime.zero) ∧
    (1 < |elevCosHA lat lon (twilightAngle tt) y m d| →
      dawnInternal lat lon y m d tt = GoTime.zero ∧
        duskInternal lat lon y m d tt = GoTime.zero) := by
  constructor
  · rw [sunriseSunsetInternal_eq]
    split_ifs <;> simp
  · intro h
    have hcond : elevCosHA lat lon (twilightAngle tt) y m d < -1 ∨
        1 < elevCosHA lat lon (twilightAngle tt) y m d := by
      rcases le_or_lt (elevCosHA lat lon (twilightAngle tt) y m d) 0 with hneg | hpos
      · left
        rw [abs_of_nonpos hneg] at h
        linarith
      · right
        rwa [abs_of_pos hpos] at h
    unfold dawnInternal duskInternal timeOfElevationInternal
    rw [if_pos hcond]
    exact ⟨rfl, rfl⟩

/-! ## Elevation and time-of-elevation consistency. -/

lemma cos_lat_pos {lat : ℝ} (h : |lat| < 90) : 0 < Real.cos (lat * Degree) := by
  apply Real.cos_pos_of_mem_Ioo
  rw [Set.mem_Ioo]
  obtain ⟨h1, h2⟩ := abs_lt.mp h
  have h90 := ninety_mul_Degree
  have hd := Degree_pos
  constructor
  · nlinarith
  · nlinarith

lemma elevationAtJD_bounds (lat lon : ℝ) (y m d : ℤ) (jd : ℝ) :
    -90 ≤ elevationAtJD lat lon y m d jd ∧ elevationAtJD lat lon y m d jd ≤ 90 := by
  unfold elevationAtJD
  have h1 := Real.neg_pi_div_two_le_arcsin (Real.sin (lat * Degree) *
    Real.sin (declOf lon y m d * Degree) +
    Real.cos (lat * Degree) * Real.cos (declOf lon y m d * Degree) *
      Real.cos (2 * Real.pi * (transitOf lon y m d - jd)))
  have h2 := Real.arcsin_le_pi_div_two (Real.sin (lat * Degree) *
    Real.sin (declOf lon y m d * Degree) +
    Real.cos (lat * Degree) * Real.cos (declOf lon y m d * Degree) *
      Real.cos (2 * Real.pi * (transitOf lon y m d - jd)))
  have h90 : Real.pi / 2 = 90 * Degree := ninety_mul_Degree.symm
  have hd := Degree_pos
  constructor
  · rw [le_div_iff₀ hd]
    nlinarith
  · rw [div_le_iff₀ hd]
    nlinarith

lemma elevationAtJD_crossing (lat lon target : ℝ) (y m d : ℤ)
    (hlat : |lat| < 90) (htarget : |target| ≤ 90)
    (jd : ℝ)
    (hjd : Real.cos (2 * Real.pi * (transitOf lon y m d - jd)) =
      elevCosHA lat lon target y m d) :
    elevationAtJD lat lon y m d jd = target := by
  have hD : 0 < Real.cos (lat * Degree) * Real.cos (declOf lon y m d * Degree) :=
    mul_pos (cos_lat_pos hlat) (cos_declOf_pos lon y m d)
  have hinner : Real.sin (lat * Degree) * Real.sin (declOf lon y m d * Degree) +
      Real.cos (lat * Degree) * Real.cos (declOf lon y m d * Degree) *
        Real.cos (2 * Real.pi * (transitOf lon y m d - jd)) =
      Real.sin (target * Degree) := by
    rw [hjd]
    unfold elevCosHA
    rw [mul_div_cancel₀ _ (ne_of_gt hD)]
    ring
  unfold elevationAtJD
  rw [hinner, Real.arcsin_sin, mul_div_cancel_right₀ _ Degree_ne_zero]
  · obtain ⟨ht1, ht2⟩ := abs_le.mp htarget
    have h90 := ninety_mul_Degree
    have hd := Degree_pos
    nlinarith
  · obtain ⟨ht1, ht2⟩ := abs_le.mp htarget
    have h90 := ninety_mul_Degree
    have hd := Degree_pos
    nlinarith

/-- C7 amended: for targets within [-90, 90] degrees and non-polar latitudes,
evaluating the elevation formula (with the same calendar date's solar chain)
at the exact morning and evening Julian-day instants computed by
TimeOfElevation returns the target elevation exactly, in particular within 2
degrees.  For targets outside [-90, 90] the claim fails (see the
counterexample): a reachable ratio does not make the returned elevation,
always in [-90, 90], match the target. -/
theorem elevation_timeOfElevation_consistency (lat lon target : ℝ) (y m d : ℤ)
    (hlat : |lat| < 90) (htarget : |target| ≤ 90)
    (hratio : |elevCosHA lat lon target y m d| ≤ 1) :
    elevationAtJD lat lon y m d (morningJD lat lon target y m d) = target ∧
    elevationAtJD lat lon y m d (eveningJD lat lon target y m d) = target ∧
    |elevationAtJD lat lon y m d (morningJD lat lon target y m d) - target| ≤ 2 ∧
    |elevationAtJD lat lon y m d (eveningJD lat lon target y m d) - target| ≤ 2 := by
  obtain ⟨hlo, hhi⟩ := abs_le.mp hratio
  have hpi : (2 : ℝ) * Real.pi ≠ 0 := ne_of_gt Real.two_pi_pos
  have hm : elevationAtJD lat lon y m d (morningJD lat lon target y m d) = target := by
    apply elevationAtJD_crossing lat lon target y m d hlat htarget
    unfold morningJD
    rw [show transitOf lon y m d - (transitOf lon y m d -
        Real.arccos (elevCosHA lat lon target y m d) / (2 * Real.pi)) =
      Real.arccos (elevCosHA lat lon target y m d) / (2 * Real.pi) by ring]
    rw [mul_div_cancel₀ _ hpi]
    exact Real.cos_arccos hlo hhi
  have he : elevationAtJD lat lon y m d (eveningJD lat lon target y m d) = target := by
    apply elevationAtJD_crossing lat lon target y m d hlat htarget
    unfold eveningJD
    rw [show 2 * Real.pi * (transitOf lon y m d - (transitOf lon y m d +
        Real.arccos (elevCosHA lat lon target y m d) / (2 * Real.pi))) =
      -(2 * Real.pi * (Real.arccos (elevCosHA lat lon target y m d) / (2 * Real.pi))) by ring]
    rw [Real.cos_neg, mul_div_cancel₀ _ hpi]
    exact Real.cos_arccos hlo hhi
  refine ⟨hm, he, ?_, ?_⟩
  · rw [hm]
    simp
  · rw [he]
    simp

lemma sin_150_Degree : Real.sin (150 * Degree) = 1 / 2 := by
  have h : (150 : ℝ) * Degree = Real.pi - Real.pi / 6 := by
    unfold Degree
    ring
  rw [h, Real.sin_pi_sub, Real.sin_pi_div_six]

/-- C7 counterexample: at the equator on 1970-01-01 the target elevation 150
degrees is reachable by the code's ratio test, TimeOfElevation returns two
instants, yet the elevation at the returned morning instant (elevation is
always within [-90, 90]) misses the 150-degree target by more than 2
degrees, refuting the claim for arbitrary reachable targets. -/
theorem elevation_consistency_counterexample :
    |elevCosHA 0 0 150 1970 1 1| ≤ 1 ∧
    timeOfElevationInternal 0 0 150 1970 1 1 =
      (GoTime.unix (JulianDayToTime (morningJD 0 0 150 1970 1 1)),
        GoTime.unix (JulianDayToTime (eveningJD 0 0 150 1970 1 1))) ∧
    2 < |elevationInternal 0 0 (JulianDayToTime (morningJD 0 0 150 1970 1 1)) - 150| := by
  have hcge := cos_declOf_ge 0 1970 1 1
  have hcpos := cos_declOf_pos 0 1970 1 1
  have hr : elevCosHA 0 0 150 1970 1 1 =
      (1 / 2) / Real.cos (declOf 0 1970 1 1 * Degree) := by
    unfold elevCosHA
    rw [sin_150_Degree]
    norm_num
  have habs : |elevCosHA 0 0 150 1970 1 1| ≤ 1 := by
    rw [hr, abs_of_pos (by positivity), div_le_one hcpos]
    linarith
  refine ⟨habs, timeOfElevation_success 0 0 150 1970 1 1 habs, ?_⟩
  have hb : elevationInternal 0 0 (JulianDayToTime (morningJD 0 0 150 1970 1 1)) ≤ 90 := by
    unfold elevationInternal
    exact (elevationAtJD_bounds 0 0 _ _ _ _).2
  rw [abs_sub_comm, abs_of_nonneg (by linarith)]
  linarith

/-- C7 witness: at latitude 0, longitude 0, target 0 degrees on 1970-01-01
the ratio is 0, the hypotheses of the amended consistency theorem hold, and
the elevation at both computed crossing instants is exactly the target. -/
theorem elevation_consistency_witness :
    |elevCosHA 0 0 0 1970 1 1| ≤ 1 ∧
    elevationAtJD 0 0 1970 1 1 (morningJD 0 0 0 1970 1 1) = 0 ∧
    elevationAtJD 0 0 1970 1 1 (eveningJD 0 0 0 1970 1 1) = 0 := by
  have hr : elevCosHA 0 0 0 1970 1 1 = 0 := by
    unfold elevCosHA
    norm_num
  have habs : |elevCosHA 0 0 0 1970 1 1| ≤ 1 := by
    rw [hr]
    norm_num
  have h := elevation_timeOfElevation_consistency 0 0 0 1970 1 1
    (by norm_num) (by norm_num) habs
  exact ⟨habs, h.1, h.2.1⟩

/-! ## Refinement between the sunrise/sunset path and the general
time-of-elevation path. -/

lemma acos_degrees_div_360 (x : ℝ) :
    (Real.arccos x / Degree) / FullCircleDegrees = Real.arccos x / (2 * Real.pi) := by
  unfold FullCircleDegrees
  rw [div_div, Degree_mul_360]

lemma sunriseJD_eq_morning_form (lat lon : ℝ) (y m d : ℤ) :
    sunriseJD lat lon y m d =
      transitOf lon y m d - Real.arccos (sunCosHA lat lon y m d) / (2 * Real.pi) := by
  unfold sunriseJD
  rw [acos_degrees_div_360]

lemma sunsetJD_eq_evening_form (lat lon : ℝ) (y m d : ℤ) :
    sunsetJD lat lon y m d =
      transitOf lon y m d + Real.arccos (sunCosHA lat lon y m d) / (2 * Real.pi) := by
  unfold sunsetJD
  rw [acos_degrees_div_360]

lemma sin_correction_target :
    Real.sin ((Real.arcsin SunriseCorrectionAngle / Degree) * Degree) =
      SunriseCorrectionAngle := by
  rw [div_mul_cancel₀ _ Degree_ne_zero, Real.sin_arcsin] <;>
    unfold SunriseCorrectionAngle <;> norm_num

lemma elevCosHA_correction (lat lon : ℝ) (y m d : ℤ) :
    elevCosHA lat lon (Real.arcsin SunriseCorrectionAngle / Degree) y m d =
      sunCosHA lat lon y m d := by
  unfold elevCosHA sunCosHA
  rw [sin_correction_target]

/-- C9 amended: SunriseSunset is exactly the TimeOfElevation computation with
the target fixed at arcsin(-0.01449) radians, about -0.8303 degrees (the
elevation whose sine is the hard-coded hour-angle correction constant): both
paths then branch on the same ratio and produce the same instants.  With the
target -0.833 degrees the two paths are not equivalent: their computed
Julian-day instants differ (see the counterexample), because sin(-0.833
degrees) is about -0.014539, not -0.01449. -/
theorem sunriseSunset_refines_timeOfElevation (lat lon : ℝ) (y m d : ℤ) :
    timeOfElevationInternal lat lon (Real.arcsin SunriseCorrectionAngle / Degree) y m d =
      ((sunriseSunsetInternal lat lon y m d).1, (sunriseSunsetInternal lat lon y m d).2.1) := by
  have hm : morningJD lat lon (Real.arcsin SunriseCorrectionAngle / Degree) y m d =
      sunriseJD lat lon y m d := by
    rw [sunriseJD_eq_morning_form]
    unfold morningJD
    rw [elevCosHA_correction]
  have he : eveningJD lat lon (Real.arcsin SunriseCorrectionAngle / Degree) y m d =
      sunsetJD lat lon y m d := by
    rw [sunsetJD_eq_evening_form]
    unfold eveningJD
    rw [elevCosHA_correction]
  rw [sunriseSunsetInternal_eq]
  unfold timeOfElevationInternal
  rw [elevCosHA_correction, hm, he]
  rcases lt_or_le 1 (sunCosHA lat lon y m d) with hgt | hle
  · rw [if_pos (Or.inr hgt), if_pos hgt]
  · rcases lt_or_le (sunCosHA lat lon y m d) (-1) with hlt | hge
    · rw [if_pos (Or.inl hlt), if_neg (by linarith), if_pos hlt]
    · rw [if_neg (by push_neg; exact ⟨by linarith, by linarith⟩), if_neg (by linarith),
        if_neg (by linarith)]

/-- C9 counterexample: at the equator and prime meridian on 1970-01-01 the
sunrise Julian day computed through the dedicated hourAngle path (constant
-0.01449 radians) differs from the morning Julian day computed by
TimeOfElevation at -0.833 degrees: the two correction constants are not
equal, so the claimed equivalence at -0.833 degrees fails. -/
theorem refinement_counterexample :
    morningJD 0 0 (-0.833) 1970 1 1 ≠ sunriseJD 0 0 1970 1 1 := by
  have hcge := cos_declOf_ge 0 1970 1 1
  have hcpos := cos_declOf_pos 0 1970 1 1
  set c := Real.cos (declOf 0 1970 1 1 * Degree) with hc
  have hr1 : sunCosHA 0 0 1970 1 1 = SunriseCorrectionAngle / c := by
    unfold sunCosHA
    norm_num
  have hr2 : elevCosHA 0 0 (-0.833) 1970 1 1 = Real.sin (-0.833 * Degree) / c := by
    unfold elevCosHA
    norm_num
  have hxb : (0.0145385 : ℝ) < 0.833 * Degree ∧ (0.833 : ℝ) * Degree < 0.0145387 := by
    have h1 := Degree_lb
    have h2 := Degree_ub
    constructor <;> nlinarith
  have hsin833 : (0.01449 : ℝ) < Real.sin (0.833 * Degree) := by
    have hs := Real.sin_gt_sub_cube (x := 0.833 * Degree) (by linarith [hxb.1]) (by linarith [hxb.2])
    have hcube : (0.833 * Degree) ^ 3 ≤ (0.0145387 : ℝ) ^ 3 := by
      apply pow_le_pow_left₀ (by linarith [hxb.1]) (by linarith [hxb.2])
    nlinarith
  have hslt : Real.sin (-0.833 * Degree) < SunriseCorrectionAngle := by
    have : (-0.833 : ℝ) * Degree = -(0.833 * Degree) := by ring
    rw [this, Real.sin_neg]
    unfold SunriseCorrectionAngle
    linarith
  have hsabs : |Real.sin (-0.833 * Degree)| ≤ 0.015 := by
    have h1 : Real.sin (0.833 * Degree) < 0.833 * Degree := Real.sin_lt (by linarith [hxb.1])
    have : (-0.833 : ℝ) * Degree = -(0.833 * Degree) := by ring
    rw [this, Real.sin_neg, abs_neg, abs_of_pos (by linarith)]
    linarith [hxb.2]
  have hr2mem : elevCosHA 0 0 (-0.833) 1970 1 1 ∈ Set.Icc (-1 : ℝ) 1 := by
    rw [hr2, Set.mem_Icc]
    obtain ⟨ha1, ha2⟩ := abs_le.mp hsabs
    constructor
    · rw [le_div_iff₀ hcpos]
      nlinarith
    · rw [div_le_one hcpos]
      nlinarith
  have hr1mem : sunCosHA 0 0 1970 1 1 ∈ Set.Icc (-1 : ℝ) 1 := by
    rw [hr1, Set.mem_Icc]
    unfold SunriseCorrectionAngle
    constructor
    · rw [le_div_iff₀ hcpos]
      nlinarith
    · rw [div_le_one hcpos]
      nlinarith
  have hrlt : elevCosHA 0 0 (-0.833) 1970 1 1 < sunCosHA 0 0 1970 1 1 := by
    rw [hr1, hr2]
    exact (div_lt_div_iff_of_pos_right hcpos).mpr hslt
  have harc : Real.arccos (sunCosHA 0 0 1970 1 1) <
      Real.arccos (elevCosHA 0 0 (-0.833) 1970 1 1) :=
    Real.strictAntiOn_arccos hr2mem hr1mem hrlt
  have h2pi := Real.two_pi_pos
  have : morningJD 0 0 (-0.833) 1970 1 1 < sunriseJD 0 0 1970 1 1 := by
    rw [sunriseJD_eq_morning_form]
    unfold morningJD
    have hdiv : Real.arccos (sunCosHA 0 0 1970 1 1) / (2 * Real.pi) <
        Real.arccos (elevCosHA 0 0 (-0.833) 1970 1 1) / (2 * Real.pi) := by
      exact (div_lt_div_iff_of_pos_right h2pi).mpr harc
    linarith
  exact ne_of_lt this

/-! ## Ordering of the twilight, sunrise and transit instants. -/

lemma twilight_deg_mem {t : ℝ} (h1 : -18 ≤ t) (h2 : t ≤ 0) :
    t * Degree ∈ Set.Icc (-(Real.pi / 2)) (Real.pi / 2) := by
  have hd := Degree_pos
  have hub := Degree_ub
  have hpi := Real.pi_gt_d6
  rw [Set.mem_Icc]
  constructor <;> nlinarith

lemma sin_twilight_lt {a b : ℝ} (ha1 : -18 ≤ a) (ha2 : a ≤ 0) (hb1 : -18 ≤ b)
    (hb2 : b ≤ 0) (hab : a < b) :
    Real.sin (a * Degree) < Real.sin (b * Degree) :=
  Real.strictMonoOn_sin (twilight_deg_mem ha1 ha2) (twilight_deg_mem hb1 hb2)
    (by nlinarith [Degree_pos])

lemma sin_civil_lt_correction :
    Real.sin (CivilTwilightAngle * Degree) < SunriseCorrectionAngle := by
  unfold CivilTwilightAngle SunriseCorrectionAngle
  have h1 := Degree_lb
  have h2 := Degree_ub
  have hxb : (0.1047192 : ℝ) < 6 * Degree ∧ (6 : ℝ) * Degree < 0.1047204 := by
    constructor <;> nlinarith
  have hs := Real.sin_gt_sub_cube (x := 6 * Degree) (by linarith [hxb.1]) (by linarith [hxb.2])
  have hcube : (6 * Degree) ^ 3 ≤ (0.1047204 : ℝ) ^ 3 :=
    pow_le_pow_left₀ (by linarith [hxb.1]) (by linarith [hxb.2]) 3
  have hpos : (0.01449 : ℝ) < Real.sin (6 * Degree) := by nlinarith
  have hneg : (-6 : ℝ) * Degree = -(6 * Degree) := by ring
  rw [hneg, Real.sin_neg]
  linarith

lemma arccos_frac_lt {r1 r2 : ℝ} (h1 : -1 ≤ r1) (h2 : r2 ≤ 1) (h12 : r1 < r2) :
    Real.arccos r2 / (2 * Real.pi) < Real.arccos r1 / (2 * Real.pi) := by
  apply (div_lt_div_iff_of_pos_right Real.two_pi_pos).mpr
  exact Real.strictAntiOn_arccos (Set.mem_Icc.mpr ⟨h1, by linarith⟩)
    (Set.mem_Icc.mpr ⟨by linarith, h2⟩) h12

/-- C1 amended: when the sun rises and sets and all three twilight crossings
occur (all four ratios within the unit interval, strictly below 1 at the
sunrise ratio, at a non-polar latitude), the computed Julian-day instants
are ordered dawn(astronomical) < dawn(nautical) < dawn(civil) < sunrise <
solar transit < sunset < dusk(civil) < dusk(nautical) < dusk(astronomical):
the astronomical twilight is the outermost crossing, not the innermost as
the claim states.  The returned whole-second times are the (monotone)
truncations of these Julian-day instants. -/
theorem twilight_ordering_amended (lat lon : ℝ) (y m d : ℤ)
    (hlat : |lat| < 90)
    (hastro : -1 ≤ elevCosHA lat lon AstronomicalTwilightAngle y m d)
    (hsun : sunCosHA lat lon y m d < 1) :
    morningJD lat lon AstronomicalTwilightAngle y m d <
        morningJD lat lon NauticalTwilightAngle y m d ∧
      morningJD lat lon NauticalTwilightAngle y m d <
        morningJD lat lon CivilTwilightAngle y m d ∧
      morningJD lat lon CivilTwilightAngle y m d < sunriseJD lat lon y m d ∧
      sunriseJD lat lon y m d < transitOf lon y m d ∧
      transitOf lon y m d < sunsetJD lat lon y m d ∧
      sunsetJD lat lon y m d < eveningJD lat lon CivilTwilightAngle y m d ∧
      eveningJD lat lon CivilTwilightAngle y m d <
        eveningJD lat lon NauticalTwilightAngle y m d ∧
      eveningJD lat lon NauticalTwilightAngle y m d <
        eveningJD lat lon AstronomicalTwilightAngle y m d := by
  have hD : 0 < Real.cos (lat * Degree) * Real.cos (declOf lon y m d * Degree) :=
    mul_pos (cos_lat_pos hlat) (cos_declOf_pos lon y m d)
  have hsAN : Real.sin (AstronomicalTwilightAngle * Degree) <
      Real.sin (NauticalTwilightAngle * Degree) := by
    unfold AstronomicalTwilightAngle NauticalTwilightAngle
    exact sin_twilight_lt (by norm_num) (by norm_num) (by norm_num) (by norm_num) (by norm_num)
  have hsNC : Real.sin (NauticalTwilightAngle * Degree) <
      Real.sin (CivilTwilightAngle * Degree) := by
    unfold NauticalTwilightAngle CivilTwilightAngle
    exact sin_twilight_lt (by norm_num) (by norm_num) (by norm_num) (by norm_num) (by norm_num)
  have hsCS := sin_civil_lt_correction
  have hrAN : elevCosHA lat lon AstronomicalTwilightAngle y m d <
      elevCosHA lat lon NauticalTwilightAngle y m d := by
    unfold elevCosHA
    exact (div_lt_div_iff_of_pos_right hD).mpr (by linarith)
  have hrNC : elevCosHA lat lon NauticalTwilightAngle y m d <
      elevCosHA lat lon CivilTwilightAngle y m d := by
    unfold elevCosHA
    exact (div_lt_div_iff_of_pos_right hD).mpr (by linarith)
  have hrCS : elevCosHA lat lon CivilTwilightAngle y m d < sunCosHA lat lon y m d := by
    unfold elevCosHA sunCosHA
    exact (div_lt_div_iff_of_pos_right hD).mpr (by linarith)
  have fAN := arccos_frac_lt hastro (by linarith) hrAN
  have fNC := arccos_frac_lt (by linarith) (by linarith) hrNC
  have fCS := arccos_frac_lt (by linarith) (by linarith) hrCS
  have fS : 0 < Real.arccos (sunCosHA lat lon y m d) / (2 * Real.pi) :=
    div_pos (Real.arccos_pos.mpr hsun) Real.two_pi_pos
  rw [sunriseJD_eq_morning_form, sunsetJD_eq_evening_form]
  unfold morningJD eveningJD
  refine ⟨by linarith, by linarith, by linarith, by linarith, by linarith, by linarith,
    by linarith, by linarith⟩

/-- C1 counterexample: at the equator and prime meridian on 1970-01-01 every
crossing occurs, yet the nautical dawn Julian day is earlier than the civil
dawn Julian day, so the claimed chain (which puts dawn(civil) before
dawn(nautical)) fails at its first link. -/
theorem twilight_ordering_counterexample :
    ¬ (morningJD 0 0 CivilTwilightAngle 1970 1 1 <
          morningJD 0 0 NauticalTwilightAngle 1970 1 1 ∧
        morningJD 0 0 NauticalTwilightAngle 1970 1 1 <
          morningJD 0 0 AstronomicalTwilightAngle 1970 1 1 ∧
        morningJD 0 0 AstronomicalTwilightAngle 1970 1 1 < sunriseJD 0 0 1970 1 1 ∧
        sunriseJD 0 0 1970 1 1 < transitOf 0 1970 1 1 ∧
        transitOf 0 1970 1 1 < sunsetJD 0 0 1970 1 1 ∧
        sunsetJD 0 0 1970 1 1 < eveningJD 0 0 AstronomicalTwilightAngle 1970 1 1 ∧
        eveningJD 0 0 AstronomicalTwilightAngle 1970 1 1 <
          eveningJD 0 0 NauticalTwilightAngle 1970 1 1 ∧
        eveningJD 0 0 NauticalTwilightAngle 1970 1 1 <
          eveningJD 0 0 CivilTwilightAngle 1970 1 1) := by
  have hcge := cos_declOf_ge 0 1970 1 1
  have hcpos := cos_declOf_pos 0 1970 1 1
  set c := Real.cos (declOf 0 1970 1 1 * Degree) with hc
  have hrN : elevCosHA 0 0 NauticalTwilightAngle 1970 1 1 =
      Real.sin (NauticalTwilightAngle * Degree) / c := by
    unfold elevCosHA
    norm_num
  have hrC : elevCosHA 0 0 CivilTwilightAngle 1970 1 1 =
      Real.sin (CivilTwilightAngle * Degree) / c := by
    unfold elevCosHA
    norm_num
  have hd := Degree_pos
  have hub := Degree_ub
  have hsN : |Real.sin (NauticalTwilightAngle * Degree)| ≤ 0.21 := by
    unfold NauticalTwilightAngle
    have hneg : (-12 : ℝ) * Degree = -(12 * Degree) := by ring
    have h12 : Real.sin (12 * Degree) < 12 * Degree := Real.sin_lt (by nlinarith)
    have h12pos : 0 < Real.sin (12 * Degree) := by
      apply Real.sin_pos_of_pos_of_lt_pi (by nlinarith)
      nlinarith [Real.pi_gt_d6]
    rw [hneg, Real.sin_neg, abs_neg, abs_of_pos h12pos]
    nlinarith
  have hsC : |Real.sin (CivilTwilightAngle * Degree)| ≤ 0.11 := by
    unfold CivilTwilightAngle
    have hneg : (-6 : ℝ) * Degree = -(6 * Degree) := by ring
    have h6 : Real.sin (6 * Degree) < 6 * Degree := Real.sin_lt (by nlinarith)
    have h6pos : 0 < Real.sin (6 * Degree) := by
      apply Real.sin_pos_of_pos_of_lt_pi (by nlinarith)
      nlinarith [Real.pi_gt_d6]
    rw [hneg, Real.sin_neg, abs_neg, abs_of_pos h6pos]
    nlinarith
  have hsNC : Real.sin (NauticalTwilightAngle * Degree) <
      Real.sin (CivilTwilightAngle * Degree) := by
    unfold NauticalTwilightAngle CivilTwilightAngle
    exact sin_twilight_lt (by norm_num) (by norm_num) (by norm_num) (by norm_num) (by norm_num)
  have hrNmem : -1 ≤ elevCosHA 0 0 NauticalTwilightAngle 1970 1 1 := by
    rw [hrN, le_div_iff₀ hcpos]
    obtain ⟨h1, h2⟩ := abs_le.mp hsN
    nlinarith
  have hrCmem : elevCosHA 0 0 CivilTwilightAngle 1970 1 1 ≤ 1 := by
    rw [hrC, div_le_one hcpos]
    obtain ⟨h1, h2⟩ := abs_le.mp hsC
    nlinarith
  have hrNC : elevCosHA 0 0 NauticalTwilightAngle 1970 1 1 <
      elevCosHA 0 0 CivilTwilightAngle 1970 1 1 := by
    rw [hrN, hrC]
    exact (div_lt_div_iff_of_pos_right hcpos).mpr hsNC
  have hfrac := arccos_frac_lt hrNmem hrCmem hrNC
  have hlt : morningJD 0 0 NauticalTwilightAngle 1970 1 1 <
      morningJD 0 0 CivilTwilightAngle 1970 1 1 := by
    unfold morningJD
    linarith
  intro h
  exact absurd h.1 (not_lt.mpr hlt.le)

/-- C1 witness: at the equator and prime meridian on 1970-01-01 the
hypotheses of the amended ordering theorem hold, so the nine instants are
ordered as the amended claim states. -/
theorem twilight_ordering_witness :
    morningJD 0 0 AstronomicalTwilightAngle 1970 1 1 <
        morningJD 0 0 NauticalTwilightAngle 1970 1 1 ∧
      morningJD 0 0 NauticalTwilightAngle 1970 1 1 <
        morningJD 0 0 CivilTwilightAngle 1970 1 1 ∧
      morningJD 0 0 CivilTwilightAngle 1970 1 1 < sunriseJD 0 0 1970 1 1 ∧
      sunriseJD 0 0 1970 1 1 < transitOf 0 1970 1 1 ∧
      transitOf 0 1970 1 1 < sunsetJD 0 0 1970 1 1 ∧
      sunsetJD 0 0 1970 1 1 < eveningJD 0 0 CivilTwilightAngle 1970 1 1 ∧
      eveningJD 0 0 CivilTwilightAngle 1970 1 1 <
        eveningJD 0 0 NauticalTwilightAngle 1970 1 1 ∧
      eveningJD 0 0 NauticalTwilightAngle 1970 1 1 <
        eveningJD 0 0 AstronomicalTwilightAngle 1970 1 1 := by
  have hcge := cos_declOf_ge 0 1970 1 1
  have hcpos := cos_declOf_pos 0 1970 1 1
  have hd := Degree_pos
  have hub := Degree_ub
  apply twilight_ordering_amended 0 0 1970 1 1 (by norm_num)
  · have hrA : elevCosHA 0 0 AstronomicalTwilightAngle 1970 1 1 =
        Real.sin (AstronomicalTwilightAngle * Degree) /
          Real.cos (declOf 0 1970 1 1 * Degree) := by
      unfold elevCosHA
      norm_num
    have hneg : AstronomicalTwilightAngle * Degree = -(18 * Degree) := by
      unfold AstronomicalTwilightAngle
      ring
    have h18 : Real.sin (18 * Degree) < 18 * Degree := Real.sin_lt (by nlinarith)
    rw [hrA, hneg, Real.sin_neg, le_div_iff₀ hcpos]
    nlinarith
  · have hrS : sunCosHA 0 0 1970 1 1 =
        SunriseCorrectionAngle / Real.cos (declOf 0 1970 1 1 * Degree) := by
      unfold sunCosHA
      norm_num
    rw [hrS, div_lt_one hcpos]
    unfold SunriseCorrectionAngle
    linarith

/-! ## A point where the azimuth is exactly 360: continuity of the transit in
the longitude and an intermediate-value argument place the true solar transit
exactly on a whole-second instant, where the reflection branch turns the
north-pointing acos value 0 into 360. -/

lemma continuous_noonOf (y m d : ℤ) :
    Continuous fun lon : ℝ => meanSolarNoonInternal lon y m d := by
  unfold meanSolarNoonInternal
  fun_prop

lemma continuous_rawAnomaly : Continuous rawAnomaly := by
  unfold rawAnomaly
  fun_prop

lemma continuous_equationOfCenter : Continuous equationOfCenter := by
  unfold equationOfCenter
  fun_prop

lemma continuous_argumentOfPerihelion : Continuous argumentOfPerihelion := by
  unfold argumentOfPerihelion
  fun_prop

lemma continuous_rawEclOf (y m d : ℤ) :
    Continuous fun lon : ℝ => rawEclOf lon y m d := by
  unfold rawEclOf
  dsimp only
  exact ((((continuous_rawAnomaly.comp (continuous_noonOf y m d)).add
    (continuous_equationOfCenter.comp
      (continuous_rawAnomaly.comp (continuous_noonOf y m d)))).add
    continuous_const).add
    (continuous_argumentOfPerihelion.comp (continuous_noonOf y m d)))

lemma continuous_transitOf (y m d : ℤ) :
    Continuous fun lon : ℝ => transitOf lon y m d := by
  have h : (fun lon : ℝ => transitOf lon y m d) = fun lon : ℝ =>
      meanSolarNoonInternal lon y m d +
        (EquationOfTimeC1 *
            Real.sin (rawAnomaly (meanSolarNoonInternal lon y m d) * Degree) -
          EquationOfTimeC2 * Real.sin (2 * rawEclOf lon y m d * Degree)) :=
    funext fun lon => transitOf_eq_raw lon y m d
  rw [h]
  apply (continuous_noonOf y m d).add
  apply Continuous.sub
  · exact continuous_const.mul (Real.continuous_sin.comp
      (((continuous_rawAnomaly.comp (continuous_noonOf y m d))).mul continuous_const))
  · exact continuous_const.mul (Real.continuous_sin.comp
      ((continuous_const.mul (continuous_rawEclOf y m d)).mul continuous_const))

lemma daysFromCivil_19700621 : daysFromCivil 1970 6 21 = 171 := by decide

lemma noonOf_19700621 (lon : ℝ) :
    meanSolarNoonInternal lon 1970 6 21 = 2440759 - lon / 360 := by
  unfold meanSolarNoonInternal LongitudeDivisor TimeToJulianDay secondsInADay unixEpochJulianDay
  rw [daysFromCivil_19700621]
  norm_num

lemma jd_19700621_noon : TimeToJulianDay 14817600 = 2440759 := by
  unfold TimeToJulianDay secondsInADay unixEpochJulianDay
  norm_num

lemma exists_lon_transit :
    ∃ lon ∈ Set.Icc (-5 : ℝ) 5, transitOf lon 1970 6 21 = 2440759 := by
  have hcont := (continuous_transitOf 1970 6 21).continuousOn
    (s := Set.Icc (-5 : ℝ) 5)
  have hsub := intermediate_value_Icc' (by norm_num : (-5 : ℝ) ≤ 5) hcont
  have hub := transitOf_sub_noon_le 5 1970 6 21
  have hlb := transitOf_sub_noon_le (-5) 1970 6 21
  rw [noonOf_19700621] at hub hlb
  obtain ⟨hub1, hub2⟩ := abs_le.mp hub
  obtain ⟨hlb1, hlb2⟩ := abs_le.mp hlb
  have hmem : (2440759 : ℝ) ∈ Set.Icc (transitOf 5 1970 6 21) (transitOf (-5) 1970 6 21) := by
    rw [Set.mem_Icc]
    constructor <;> nlinarith
  obtain ⟨lon, hlon, hG⟩ := hsub hmem
  exact ⟨lon, hlon, hG⟩

lemma sin_ecl_pos_19700621 (lon : ℝ) (hmem : lon ∈ Set.Icc (-5 : ℝ) 5) :
    0 < Real.sin (eclOf lon 1970 6 21 * Degree) := by
  obtain ⟨hl, hr⟩ := Set.mem_Icc.mp hmem
  have hnoon := noonOf_19700621 lon
  have hA : -10273.17 ≤ rawAnomaly (meanSolarNoonInternal lon 1970 6 21) ∧
      rawAnomaly (meanSolarNoonInternal lon 1970 6 21) ≤ -10273.14 := by
    rw [hnoon]
    unfold rawAnomaly SolarMeanAnomalyBase SolarMeanAnomalyRate J2000
    constructor <;> nlinarith
  have hC := abs_equationOfCenter_le (rawAnomaly (meanSolarNoonInternal lon 1970 6 21))
  obtain ⟨hC1, hC2⟩ := abs_le.mp hC
  have hP : 102.8361 ≤ argumentOfPerihelion (meanSolarNoonInternal lon 1970 6 21) ∧
      argumentOfPerihelion (meanSolarNoonInternal lon 1970 6 21) ≤ 102.8362 := by
    rw [hnoon]
    unfold argumentOfPerihelion PerihelionBase PerihelionRate J2000 JulianCenturyDays
    constructor <;> nlinarith
  have hLraw : 87 ≤ rawEclOf lon 1970 6 21 + 10080 ∧
      rawEclOf lon 1970 6 21 + 10080 ≤ 92 := by
    unfold rawEclOf HalfCircleDegrees
    dsimp only
    constructor <;> nlinarith [hA.1, hA.2, hP.1, hP.2]
  rw [sin_eclOf]
  have hper : Real.sin (rawEclOf lon 1970 6 21 * Degree) =
      Real.sin ((rawEclOf lon 1970 6 21 + 10080) * Degree) := by
    have h : rawEclOf lon 1970 6 21 * Degree =
        (rawEclOf lon 1970 6 21 + 10080) * Degree + (-28 : ℤ) * (2 * Real.pi) := by
      unfold Degree
      push_cast
      ring
    rw [h, Real.sin_add_int_mul_two_pi]
  rw [hper]
  apply Real.sin_pos_of_pos_of_lt_pi
  · nlinarith [mul_pos (show (0 : ℝ) < rawEclOf lon 1970 6 21 + 10080 by linarith [hLraw.1])
      Degree_pos]
  · have hDeq : Degree = Real.pi / 180 := rfl
    nlinarith [mul_pos Real.pi_pos
      (show (0 : ℝ) < 180 - (rawEclOf lon 1970 6 21 + 10080) by linarith [hLraw.2])]

lemma azimuth_360_at_transit (lon : ℝ) (hmem : lon ∈ Set.Icc (-5 : ℝ) 5)
    (hG : transitOf lon 1970 6 21 = 2440759) :
    azimuthInternal 0 lon 14817600 = 360 := by
  have hdate : dateOfUnix 14817600 = (1970, 6, 21) := by decide
  have hsinE := sin_ecl_pos_19700621 lon hmem
  have hsind : 0 < Real.sin (declOf lon 1970 6 21 * Degree) := by
    rw [sin_declOf]
    unfold SinDeclinationCoefficient
    exact mul_pos hsinE (by norm_num)
  have hH : azHourAngleOf lon 14817600 = 0 := by
    unfold azHourAngleOf
    rw [hdate]
    dsimp only
    rw [jd_19700621_noon, hG]
    ring
  have helev : elevationInternal 0 lon 14817600 =
      Real.arcsin (Real.cos (declOf lon 1970 6 21 * Degree)) / Degree := by
    unfold elevationInternal
    rw [hdate]
    dsimp only
    unfold elevationAtJD
    rw [jd_19700621_noon, hG]
    norm_num
  have hcosElev : Real.cos (elevationInternal 0 lon 14817600 * Degree) =
      Real.sin (declOf lon 1970 6 21 * Degree) := by
    rw [helev, div_mul_cancel₀ _ Degree_ne_zero, Real.cos_arcsin]
    have hsq : (1 : ℝ) - Real.cos (declOf lon 1970 6 21 * Degree) ^ 2 =
        Real.sin (declOf lon 1970 6 21 * Degree) ^ 2 := by
      have := Real.sin_sq (declOf lon 1970 6 21 * Degree)
      linarith
    rw [hsq, Real.sqrt_sq_eq_abs, abs_of_pos hsind]
  have hcosArg : azCosArg 0 lon 14817600 = 1 := by
    unfold azCosArg
    rw [hdate]
    dsimp only
    rw [hcosElev, hH]
    norm_num
    exact div_self (ne_of_gt hsind)
  have h0le : (0 : ℝ) ≤ azHourAngleOf lon 14817600 := by
    rw [hH]
  unfold azimuthInternal FullCircleDegrees
  rw [if_pos h0le, hcosArg, Real.arccos_one]
  norm_num

/-- C5 counterexample: the claim that the azimuth is always strictly below
360 is false: on 1970-06-21 at 12:00:00 UTC on the equator there is a
longitude (found by the intermediate value theorem between -5 and 5 degrees)
at which the instant is exactly the true solar transit; the hour angle is 0,
the summer sun is due north of the equator, the azimuth cosine is exactly 1,
and the reflected azimuth is exactly 360. -/
theorem azimuth_range_counterexample :
    ¬ ∀ (lat lon : ℝ) (when : ℤ),
      0 ≤ azimuthInternal lat lon when ∧ azimuthInternal lat lon when < 360 := by
  intro hall
  obtain ⟨lon, hmem, hG⟩ := exists_lon_transit
  have h360 := azimuth_360_at_transit lon hmem hG
  have hlt := (hall 0 lon 14817600).2
  rw [h360] at hlt
  exact lt_irrefl _ hlt

end Solar
